import Mathlib

/-!
A shallow embedding of the codemirror-promql completion core: the hybrid
completion resolver (`HybridComplete.promQL`), its result assembler
(`arrayToCompletionResult`), and the language-server client (`LSPClient`),
together with proofs of the specified properties about replacement spans,
branch classification, and error handling.

Syntax-tree nodes (`Subtree`) carry a lezer node-type identifier, start and
end offsets, a parent link and a list of children, exactly the structural
links the resolver follows.  External collaborators (the lezer parse, the
host fuzzy filter, the Prometheus HTTP client, the path-finder helpers) are
not part of the sources at hand and are modelled explicitly from the spec,
each marked as such in its doc comment.
-/

/-- A node of the lezer parse tree: a node-type identifier, `start`/`end`
offsets (`stop` stands for the reserved word `end`), a `parent` link and the
list of children (`firstChild` / `lastChild` are derived views).  The
embedding records the links as given; the resolver only ever reads them. -/
inductive Subtree : Type where
  | node (typeId : Nat) (start stop : Nat) (parent : Option Subtree) (children : List Subtree)

namespace Subtree

/-- The node-type identifier (`type.id` in the source). -/
def typeId : Subtree → Nat
  | node t _ _ _ _ => t

/-- The start offset of the node. -/
def start : Subtree → Nat
  | node _ s _ _ _ => s

/-- The end offset of the node (`end` in the source). -/
def stop : Subtree → Nat
  | node _ _ e _ _ => e

/-- The parent link of the node. -/
def parent : Subtree → Option Subtree
  | node _ _ _ p _ => p

/-- The children of the node. -/
def children : Subtree → List Subtree
  | node _ _ _ _ c => c

/-- The first child (`firstChild` in the source). -/
def firstChild (t : Subtree) : Option Subtree := t.children.head?

/-- The last child (`lastChild` in the source). -/
def lastChild (t : Subtree) : Option Subtree := t.children.getLast?

end Subtree

/-- The `type.id` of an optional node, as produced by optional chaining
`node?.type.id` in the source (`none` when the node is absent). -/
def optTypeId (t : Option Subtree) : Option Nat := t.map Subtree.typeId

/-- lezer error-node type identifier: the source compares `type.id` to the
literal `0` for unrecognized/invalid tokens. -/
def errorNodeId : Nat := 0

/-- Node-type identifier `Identifier` of lezer-promql. -/
def Identifier : Nat := 1

/-- Node-type identifier `MetricIdentifier` of lezer-promql. -/
def MetricIdentifier : Nat := 2

/-- Node-type identifier `VectorSelector` of lezer-promql. -/
def VectorSelector : Nat := 3

/-- Node-type identifier `LabelMatchers` of lezer-promql. -/
def LabelMatchers : Nat := 4

/-- Node-type identifier `LabelMatcher` of lezer-promql. -/
def LabelMatcher : Nat := 5

/-- Node-type identifier `LabelName` of lezer-promql. -/
def LabelName : Nat := 6

/-- Node-type identifier `StringLiteral` of lezer-promql. -/
def StringLiteral : Nat := 7

/-- Node-type identifier `GroupingLabels` of lezer-promql. -/
def GroupingLabels : Nat := 8

/-- Node-type identifier `GroupingLabel` of lezer-promql. -/
def GroupingLabel : Nat := 9

/-- Node-type identifier `AggregateOp` of lezer-promql. -/
def AggregateOp : Nat := 10

/-- Node-type identifier `BinaryExpr` of lezer-promql. -/
def BinaryExpr : Nat := 11

/-- Node-type identifier `FunctionIdentifier` of lezer-promql. -/
def FunctionIdentifier : Nat := 12

/-- Node-type identifier `MatchOp` of lezer-promql. -/
def MatchOp : Nat := 13

/-- Modelled from the spec: the match-operator term list of the
`promql.terms` module, which is not part of the sources at hand; the spec
fixes the categories but not the literal terms, so a representative PromQL
term list is used. -/
def matchOpTerms : List String := ["=", "!=", "=~", "!~"]

/-- Modelled from the spec: the binary-operator term list of the
`promql.terms` module (see `matchOpTerms`). -/
def binOpTerms : List String :=
  ["+", "-", "*", "/", "%", "^", "==", "!=", "<", ">", "<=", ">=", "and", "or", "unless"]

/-- Modelled from the spec: the binary-operator-modifier term list of the
`promql.terms` module (see `matchOpTerms`). -/
def binOpModifierTerms : List String := ["on", "ignoring", "group_left", "group_right", "bool"]

/-- Modelled from the spec: the function-name term list of the
`promql.terms` module (see `matchOpTerms`). -/
def functionIdentifierTerms : List String :=
  ["abs", "absent", "ceil", "floor", "rate", "round", "sqrt", "time", "vector"]

/-- Modelled from the spec: the aggregation-operator term list of the
`promql.terms` module (see `matchOpTerms`). -/
def aggregateOpTerms : List String :=
  ["avg", "bottomk", "count", "count_values", "max", "min", "quantile", "stddev", "stdvar", "sum", "topk"]

/-- Modelled from the spec: the aggregation-operator-modifier term list of
the `promql.terms` module (see `matchOpTerms`). -/
def aggregateOpModifierTerms : List String := ["by", "without"]

/-- A static candidate source: a list of literal terms plus the display kind
tag attached to each of them. -/
structure AutoCompleteNode where
  labels : List String
  type : String
deriving DecidableEq

namespace autocompleteNode

/-- The `matchOp` entry of the `autocompleteNode` table. -/
def matchOp : AutoCompleteNode := { labels := matchOpTerms, type := "" }

/-- The `binOp` entry of the `autocompleteNode` table. -/
def binOp : AutoCompleteNode := { labels := binOpTerms, type := "" }

/-- The `binOpModifier` entry of the `autocompleteNode` table. -/
def binOpModifier : AutoCompleteNode := { labels := binOpModifierTerms, type := "keyword" }

/-- The `functionIdentifier` entry of the `autocompleteNode` table. -/
def functionIdentifier : AutoCompleteNode := { labels := functionIdentifierTerms, type := "function" }

/-- The `aggregateOp` entry of the `autocompleteNode` table. -/
def aggregateOp : AutoCompleteNode := { labels := aggregateOpTerms, type := "keyword" }

/-- The `aggregateOpModifier` entry of the `autocompleteNode` table. -/
def aggregateOpModifier : AutoCompleteNode := { labels := aggregateOpModifierTerms, type := "keyword" }

end autocompleteNode

/-- What applying a candidate inserts: either plain text, or a snippet
template with placeholders (`snippet(...)` of the autocomplete library). -/
inductive ApplyAction : Type where
  | text (s : String)
  | snippetTemplate (template : String)
deriving DecidableEq

/-- A completion candidate as handed to the host: display label, original
text, insertion action, optional display kind, and a match score. -/
structure Completion where
  label : String
  original : String
  apply : ApplyAction
  type : Option String
  score : Nat
deriving DecidableEq

/-- Whether a candidate inserts a snippet template. -/
def Completion.isSnippet (c : Completion) : Bool :=
  match c.apply with
  | ApplyAction.snippetTemplate _ => true
  | ApplyAction.text _ => false

/-- The completion result returned to the host: replacement span
`from_`/`to` (for `from`/`to`), candidates, and the filter-down pattern
(recorded as its source text). -/
structure CompletionResult where
  from_ : Nat
  to_ : Nat
  options : List Completion
  filterDownOn : String
deriving DecidableEq

/-- A snippet specification: trigger keyword, parameterized template, and an
optional display name. -/
structure SnippetSpec where
  keyword : String
  snippet : String
  name : Option String
deriving DecidableEq

/-- The fixed snippet list of the source. -/
def snippets : List SnippetSpec :=
  [ { keyword := "sum(rate(__input_vector__[5m]))",
      snippet := "sum(rate(${__input_vector__}[5m]))",
      name := none },
    { keyword := "histogram_quantile(__quantile__, sum by(le) (rate(__histogram_metric__[5m])))",
      snippet := "histogram_quantile(${__quantile__}, sum by(le) (rate(${__histogram_metric__}[5m])))",
      name := none },
    { keyword := "label_replace(__input_vector__, \"__dst__\", \"__replacement__\", \"__src__\", \"__regex__\")",
      snippet := "label_replace(${__input_vector__}, \"${__dst__}\", \"${__replacement__}\", \"${__src__}\", \"${__regex__}\")",
      name := none } ]

/-- The pre-parsed snippet candidates (`parsedSnippets` in the source):
label is the snippet name or its keyword, apply is the parsed template. -/
def parsedSnippets : List Completion :=
  snippets.map fun s =>
    { label := s.name.getD s.keyword
      original := s.name.getD s.keyword
      apply := ApplyAction.snippetTemplate s.snippet
      type := none
      score := 0 }

/-- Outcome of one metadata HTTP lookup: a successful payload, or a failure
(network error, non-2xx status, or malformed payload). -/
inductive FetchOutcome : Type where
  | success (values : List String)
  | failure (msg : String)
deriving DecidableEq

/-- The string list a lookup outcome resolves to: failures resolve to the
empty list. -/
def FetchOutcome.resolve : FetchOutcome → List String
  | FetchOutcome.success vs => vs
  | FetchOutcome.failure _ => []

/-- Whether the lookup failed. -/
def FetchOutcome.isFailure : FetchOutcome → Bool
  | FetchOutcome.success _ => false
  | FetchOutcome.failure _ => true

/-- Modelled from the spec: the `PrometheusClient` of `../client` is not
part of the sources at hand.  It exposes `labelNames` (optionally scoped to
a metric) and `labelValues` (for a label, optionally scoped to a metric);
the structure records the raw network outcome of every lookup so that
failures stay observable. -/
structure PrometheusClient where
  labelNamesOutcome : Option String → FetchOutcome
  labelValuesOutcome : String → Option String → FetchOutcome

/-- Modelled from the spec: the promise returned by
`PrometheusClient.labelNames`; on non-2xx or malformed responses the
operation resolves to an empty sequence (logged, not thrown), so the promise
never rejects. -/
def PrometheusClient.labelNames (c : PrometheusClient) (metricName : Option String) :
    Except String (List String) :=
  Except.ok (c.labelNamesOutcome metricName).resolve

/-- Modelled from the spec: the promise returned by
`PrometheusClient.labelValues`; failure handling as in
`PrometheusClient.labelNames`. -/
def PrometheusClient.labelValues (c : PrometheusClient) (labelName : String)
    (metricName : Option String) : Except String (List String) :=
  Except.ok (c.labelValuesOutcome labelName metricName).resolve

/-- The slice of editor state the resolver consumes: the document text and
the lezer parse, the latter as the node that the black-box
`state.tree.resolve(pos, -1)` yields at each cursor offset. -/
structure EditorState where
  doc : String
  resolve : Nat → Subtree

/-- `state.sliceDoc(a, b)`: the document substring covering `[a, b)`. -/
def EditorState.sliceDoc (s : EditorState) (a b : Nat) : String :=
  String.mk ((s.doc.toList.drop a).take (b - a))

/-- Modelled from the spec: the autocomplete context handed to the resolver
by the host library: editor state, cursor offset `pos`, and the host
fuzzy filter/score function.  A candidate the filter drops yields `none`; a
surviving candidate carries a match score used for display ordering. -/
structure AutocompleteContext where
  state : EditorState
  pos : Nat
  filterScore : Completion → String → Option Nat

/-- Modelled from the spec: `context.filter(completion, text)` — `none`
drops the candidate, otherwise the candidate is kept with its match score. -/
def AutocompleteContext.filter (ctx : AutocompleteContext) (c : Completion) (text : String) :
    Option Completion :=
  (ctx.filterScore c text).map fun sc => { c with score := sc }

/-- `arrayToCompletionResult`: feed every term of every candidate source
through the host filter against the in-progress text, append the snippet
candidates when requested, and return the completion result with the given
replacement span. -/
def arrayToCompletionResult (data : List AutoCompleteNode) (from_ to_ : Nat)
    (ctx : AutocompleteContext) (state : EditorState) (includeSnippet : Bool) :
    CompletionResult :=
  let text := state.sliceDoc from_ to_
  let base : List Completion := data.flatMap fun completionList =>
    completionList.labels.filterMap fun label =>
      ctx.filter
        { label := label
          original := label
          apply := ApplyAction.text label
          type := some completionList.type
          score := 0 } text
  let opts := base ++
    (if includeSnippet then parsedSnippets.filterMap (fun s => ctx.filter s text) else [])
  { from_ := from_, to_ := to_, options := opts, filterDownOn := "^[a-zA-Z0-9_:]+$" }

/-- Modelled from the spec: `walkBackward` of the `parser/path-finder`
module, which is not part of the sources at hand.  It ascends through
`parent` links until a node whose type matches the target identifier is
found, or the root is reached; "not found" is `none`, not a failure. -/
def walkBackward : Subtree → Nat → Option Subtree
  | Subtree.node t s e p c, target =>
    if t = target then some (Subtree.node t s e p c)
    else
      match p with
      | some par => walkBackward par target
      | none => none

/-- Modelled from the spec: `walkThrough` of the `parser/path-finder`
module, which is not part of the sources at hand.  It descends from a node
through a chain of expected child type identifiers, returning the final node
or `none` if any link of the chain is missing. -/
def walkThrough : Subtree → List Nat → Option Subtree
  | t, [] => some t
  | t, id :: rest =>
    match t.children.find? (fun c => c.typeId == id) with
    | some c => walkThrough c rest
    | none => none

/-- `getMetricNameInVectorSelector`: walk backward to the enclosing
`VectorSelector`, then through `MetricIdentifier` and `Identifier`, and
slice the metric name out of the document; the empty string when absent. -/
def getMetricNameInVectorSelector (tree : Subtree) (state : EditorState) : String :=
  match walkBackward tree VectorSelector with
  | none => ""
  | some vectorSelector =>
    match walkThrough vectorSelector [MetricIdentifier, Identifier] with
    | none => ""
    | some metricNode => state.sliceDoc metricNode.start metricNode.stop

/-- The label name of a label matcher: the slice of its first child when
that child is a `LabelName`, the empty string otherwise (the extraction
inside `autocompleteLabelValue`). -/
def matcherLabelName (parent : Subtree) (state : EditorState) : String :=
  match parent.firstChild with
  | some fc => if fc.typeId = LabelName then state.sliceDoc fc.start fc.stop else ""
  | none => ""

/-- `tree.lastChild?.firstChild === null` of the source: the last child
exists and has no first child. -/
def lastChildFirstChildIsNull (t : Subtree) : Bool :=
  match t.lastChild with
  | some lc => lc.firstChild.isNone
  | none => false

/-- `tree.parent?.parent?.parent?.parent` of the source: the fourth
ancestor, when the chain exists. -/
def fourthAncestor (t : Subtree) : Option Subtree :=
  ((t.parent.bind Subtree.parent).bind Subtree.parent).bind Subtree.parent

/-- The candidate sources of the metric-name-identifier branch
(`nonMetricCompletions` in the source): function names, aggregation
operators and binary operators, plus the binary-operator modifiers when the
fourth ancestor of the resolved node is a `BinaryExpr`. -/
def metricNameCompletionNodes (tree : Subtree) : List AutoCompleteNode :=
  if optTypeId (fourthAncestor tree) = some BinaryExpr then
    [autocompleteNode.functionIdentifier, autocompleteNode.aggregateOp, autocompleteNode.binOp] ++
      [autocompleteNode.binOpModifier]
  else
    [autocompleteNode.functionIdentifier, autocompleteNode.aggregateOp, autocompleteNode.binOp]

/-- `HybridComplete`: the completion strategy, with an optional Prometheus
client. -/
structure HybridComplete where
  prometheusClient : Option PrometheusClient

/-- `labelNames`: `null` without a client, otherwise fetch the label names
(optionally scoped to a metric) and assemble the result; the replacement
span skips the opening bracket when the resolved node is the list node
itself. -/
def HybridComplete.labelNames (hc : HybridComplete) (tree : Subtree) (pos : Nat)
    (ctx : AutocompleteContext) (state : EditorState) (metricName : Option String) :
    Option (Except String CompletionResult) :=
  match hc.prometheusClient with
  | none => none
  | some client =>
    some ((client.labelNames metricName).map fun labelNames =>
      arrayToCompletionResult [{ labels := labelNames, type := "constant" }]
        (if tree.typeId = GroupingLabels ∨ tree.typeId = LabelMatchers then tree.start + 1
         else tree.start)
        pos ctx state false)

/-- `autocompleteLabelNamesByMetric`: label names scoped by the metric name
found from the tree. -/
def HybridComplete.autocompleteLabelNamesByMetric (hc : HybridComplete) (tree : Subtree)
    (pos : Nat) (ctx : AutocompleteContext) (state : EditorState) :
    Option (Except String CompletionResult) :=
  hc.labelNames tree pos ctx state (some (getMetricNameInVectorSelector tree state))

/-- `autocompleteLabelValue`: `null` without a client, otherwise fetch the
label values of the matcher's label name scoped by the metric name, and
assemble the result with a replacement span starting one character after the
string literal's start (keeping the opening quote). -/
def HybridComplete.autocompleteLabelValue (hc : HybridComplete) (parent current : Subtree)
    (pos : Nat) (ctx : AutocompleteContext) (state : EditorState) :
    Option (Except String CompletionResult) :=
  match hc.prometheusClient with
  | none => none
  | some client =>
    some ((client.labelValues (matcherLabelName parent state)
        (some (getMetricNameInVectorSelector current state))).map fun labelValues =>
      arrayToCompletionResult [{ labels := labelValues, type := "text" }]
        (current.start + 1) pos ctx state false)

/-- The ordered branch classification of `promQL`, applied to the node the
parse resolves at the cursor (`tree` in the source).  A `none` result is
"no completion applicable"; a `some` result is the (possibly deferred)
completion, an `Except.error` standing for a rejected promise. -/
def HybridComplete.promQLWithTree (hc : HybridComplete) (ctx : AutocompleteContext)
    (tree : Subtree) : Option (Except String CompletionResult) :=
  if optTypeId tree.parent = some MetricIdentifier ∧ tree.typeId = Identifier then
    match hc.prometheusClient with
    | some client =>
      some ((client.labelValues "__name__" none).map fun metricNames =>
        arrayToCompletionResult
          ({ labels := metricNames, type := "constant" } :: metricNameCompletionNodes tree)
          tree.start ctx.pos ctx ctx.state true)
    | none =>
      some (Except.ok (arrayToCompletionResult (metricNameCompletionNodes tree)
        tree.start ctx.pos ctx ctx.state true))
  else if tree.typeId = GroupingLabels ∨
      (optTypeId tree.parent = some GroupingLabel ∧ tree.typeId = LabelName) then
    hc.labelNames tree ctx.pos ctx ctx.state none
  else if tree.typeId = LabelMatchers ∨
      (optTypeId tree.parent = some LabelMatcher ∧ tree.typeId = LabelName) then
    hc.autocompleteLabelNamesByMetric tree ctx.pos ctx ctx.state
  else if optTypeId tree.parent = some LabelMatcher ∧ tree.typeId = StringLiteral then
    tree.parent.bind fun par => hc.autocompleteLabelValue par tree ctx.pos ctx ctx.state
  else if tree.typeId = LabelMatcher ∧ optTypeId tree.firstChild = some LabelName ∧
      optTypeId tree.lastChild = some errorNodeId ∧ lastChildFirstChildIsNull tree = true then
    tree.lastChild.map fun lc =>
      Except.ok (arrayToCompletionResult [autocompleteNode.matchOp] lc.start ctx.pos ctx ctx.state false)
  else if tree.typeId = MatchOp ∨ optTypeId tree.parent = some MatchOp then
    some (Except.ok (arrayToCompletionResult [autocompleteNode.matchOp] tree.start ctx.pos ctx ctx.state false))
  else if optTypeId tree.parent = some BinaryExpr then
    some (Except.ok (arrayToCompletionResult [autocompleteNode.binOp] tree.start ctx.pos ctx ctx.state false))
  else if optTypeId tree.parent = some FunctionIdentifier then
    some (Except.ok (arrayToCompletionResult [autocompleteNode.functionIdentifier] tree.start ctx.pos ctx ctx.state false))
  else if optTypeId tree.parent = some AggregateOp then
    some (Except.ok (arrayToCompletionResult [autocompleteNode.aggregateOp] tree.start ctx.pos ctx ctx.state false))
  else if (tree.typeId = Identifier ∧ optTypeId tree.parent = some errorNodeId) ∨
      (tree.typeId = errorNodeId ∧ optTypeId tree.parent ≠ some LabelMatchers) then
    some (Except.ok (arrayToCompletionResult
      [autocompleteNode.aggregateOpModifier, autocompleteNode.binOp] tree.start ctx.pos ctx ctx.state false))
  else
    none

/-- `promQL`: resolve the node at the cursor (with side `-1`) and classify
it. -/
def HybridComplete.promQL (hc : HybridComplete) (ctx : AutocompleteContext) :
    Option (Except String CompletionResult) :=
  hc.promQLWithTree ctx (ctx.state.resolve ctx.pos)

/-- A line of the editor document, as the CodeMirror `doc.lineAt` view:
`from_` is the absolute offset of the line start, `number` the 1-based line
number. -/
structure Line where
  from_ : Nat
  number : Nat
deriving DecidableEq

/-- Helper for `lineAt`: scan the characters in order with their offset,
advancing the current line start and 1-based line number at every newline
that lies strictly before the position (a position at a line's end still
belongs to that line). -/
def lineAtAux : List Char → Nat → Nat → Nat → Nat → Line
  | [], _, lineStart, num, _ => { from_ := lineStart, number := num }
  | ch :: rest, i, lineStart, num, pos =>
    if i < pos ∧ ch = '\n' then lineAtAux rest (i + 1) (i + 1) (num + 1) pos
    else lineAtAux rest (i + 1) lineStart num pos

/-- `state.doc.lineAt(pos)`: the document line containing the offset. -/
def lineAt (doc : String) (pos : Nat) : Line :=
  lineAtAux doc.toList 0 0 1 pos

/-- A 0-based line/character position of the language-server protocol. -/
structure LSPPosition where
  line : Nat
  character : Nat
deriving DecidableEq

/-- A replacement range of the language-server protocol (`start`/`end`;
`stop` stands for the reserved word `end`). -/
structure LSPRange where
  start : LSPPosition
  stop : LSPPosition
deriving DecidableEq

/-- A precomputed replacement edit carried by a language-server candidate. -/
structure TextEdit where
  range : LSPRange
  newText : String
deriving DecidableEq

/-- One item of the language-server completion response. -/
structure AutocompleteResponse where
  label : String
  textEdit : Option TextEdit
deriving DecidableEq

/-- The payload of the language-server response: either an iterable sequence
of items, or a malformed (non-iterable) value, which the source detects with
`isIterable` and skips. -/
inductive LSPResponseData : Type where
  | iterable (items : List AutocompleteResponse)
  | notIterable
deriving DecidableEq

/-- A candidate pushed by the language-server client (only a label). -/
structure LSPCompletionItem where
  label : String
deriving DecidableEq

/-- The completion result assembled by the language-server client. -/
structure LSPCompletionResult where
  from_ : Nat
  to_ : Nat
  options : List LSPCompletionItem
deriving DecidableEq

namespace LSPClient

/-- The request body `LSPClient.autocomplete` posts to `/completion`:
the whole document, a fixed limit, and the cursor as 0-based line and
character coordinates (`positionChar` as the signed arithmetic of the
source computes it). -/
structure Body where
  expr : String
  limit : Nat
  positionChar : Int
  positionLine : Nat
deriving DecidableEq

/-- Build the request body from the document and cursor offset, exactly as
`LSPClient.autocomplete` does before posting. -/
def requestBody (doc : String) (pos : Nat) : Body :=
  let line := lineAt doc pos
  { expr := doc
    limit := 100
    positionChar :=
      if (pos : Int) - line.from_ - 1 > 0 then (pos : Int) - line.from_ - 1
      else (pos : Int) - line.from_
    positionLine := line.number - 1 }

/-- The response handler of `LSPClient.autocomplete`: push one candidate per
item, a `textEdit`'s `newText` overriding the item label and the last
`textEdit` seen determining the shared replacement start (line start plus the
edit's start character); without any `textEdit` the result starts at the
line start, and it always ends at the cursor. -/
def handleResponse (doc : String) (pos : Nat) (data : LSPResponseData) : LSPCompletionResult :=
  let line := lineAt doc pos
  let folded : List LSPCompletionItem × Option TextEdit :=
    match data with
    | LSPResponseData.notIterable => ([], none)
    | LSPResponseData.iterable items =>
      items.foldl
        (fun acc res =>
          match res.textEdit with
          | some te => (acc.1 ++ [{ label := te.newText }], some te)
          | none => (acc.1 ++ [{ label := res.label }], acc.2))
        ([], none)
  { from_ :=
      match folded.2 with
      | some te => line.from_ + te.range.start.character
      | none => line.from_
    to_ := pos
    options := folded.1 }

/-- `LSPClient.autocomplete`: post the request and map the handler over the
response promise; a rejected post propagates (there is no catch in the
source). -/
def autocomplete (doc : String) (pos : Nat)
    (response : Except String LSPResponseData) : Except String LSPCompletionResult :=
  response.map (handleResponse doc pos)

end LSPClient

/-- The replacement start of an assembled result is the `from_` argument. -/
@[simp] lemma arrayToCompletionResult_from_ (data : List AutoCompleteNode) (from_ to_ : Nat)
    (ctx : AutocompleteContext) (state : EditorState) (inc : Bool) :
    (arrayToCompletionResult data from_ to_ ctx state inc).from_ = from_ := rfl

/-- The replacement end of an assembled result is the `to_` argument. -/
@[simp] lemma arrayToCompletionResult_to_ (data : List AutoCompleteNode) (from_ to_ : Nat)
    (ctx : AutocompleteContext) (state : EditorState) (inc : Bool) :
    (arrayToCompletionResult data from_ to_ ctx state inc).to_ = to_ := rfl

/-- The host filter only re-scores a candidate: every other field of a
surviving candidate is that of the input. -/
lemma filter_fields {ctx : AutocompleteContext} {c o : Completion} {text : String}
    (h : ctx.filter c text = some o) :
    o.label = c.label ∧ o.original = c.original ∧ o.apply = c.apply ∧ o.type = c.type := by
  unfold AutocompleteContext.filter at h
  cases hsc : ctx.filterScore c text with
  | none => rw [hsc] at h; simp at h
  | some sc =>
    rw [hsc] at h
    simp only [Option.map] at h
    injection h with h
    subst h
    exact ⟨rfl, rfl, rfl, rfl⟩

/-- Soundness of the assembler: every option of an assembled result comes
from one of the candidate sources (as plain text with that source's display
kind), or — only when snippets were requested — from a parsed snippet. -/
lemma mem_arrayToCompletionResult {data : List AutoCompleteNode} {from_ to_ : Nat}
    {ctx : AutocompleteContext} {state : EditorState} {inc : Bool} {o : Completion}
    (h : o ∈ (arrayToCompletionResult data from_ to_ ctx state inc).options) :
    (∃ n ∈ data, o.label ∈ n.labels ∧ o.type = some n.type ∧ o.apply = ApplyAction.text o.label) ∨
    (inc = true ∧ ∃ s ∈ parsedSnippets, o.label = s.label ∧ o.type = s.type ∧ o.apply = s.apply) := by
  unfold arrayToCompletionResult at h
  simp only [List.mem_append, List.mem_flatMap, List.mem_filterMap] at h
  rcases h with ⟨n, hn, lab, hlab, hfil⟩ | h
  · obtain ⟨h1, h2, h3, h4⟩ := filter_fields hfil
    refine Or.inl ⟨n, hn, ?_, ?_, ?_⟩
    · rw [h1]; exact hlab
    · rw [h4]
    · rw [h3, h1]
  · by_cases hc : inc = true
    · rw [if_pos hc, List.mem_filterMap] at h
      rcases h with ⟨s, hs, hfil⟩
      obtain ⟨h1, h2, h3, h4⟩ := filter_fields hfil
      exact Or.inr ⟨hc, s, hs, h1, h4, h3⟩
    · rw [if_neg hc] at h
      exact absurd h (List.not_mem_nil o)

/-- Completeness of the assembler under a filter that drops nothing: every
term of every candidate source appears as the label of some option. -/
lemma label_mem_arrayToCompletionResult {data : List AutoCompleteNode} {from_ to_ : Nat}
    {ctx : AutocompleteContext} {state : EditorState} {inc : Bool} {n : AutoCompleteNode}
    {label : String}
    (hpass : ∀ c text, ∃ sc, ctx.filterScore c text = some sc)
    (hn : n ∈ data) (hl : label ∈ n.labels) :
    ∃ o ∈ (arrayToCompletionResult data from_ to_ ctx state inc).options, o.label = label := by
  obtain ⟨sc, hsc⟩ := hpass
    (Completion.mk label label (ApplyAction.text label) (some n.type) 0)
    (state.sliceDoc from_ to_)
  refine ⟨Completion.mk label label (ApplyAction.text label) (some n.type) sc, ?_, rfl⟩
  unfold arrayToCompletionResult
  simp only [List.mem_append, List.mem_flatMap, List.mem_filterMap]
  refine Or.inl ⟨n, hn, label, hl, ?_⟩
  unfold AutocompleteContext.filter
  rw [hsc]
  rfl

/-- A result assembled without snippets holds no snippet candidate. -/
lemma isSnippet_false_of_mem {data : List AutoCompleteNode} {from_ to_ : Nat}
    {ctx : AutocompleteContext} {state : EditorState} {o : Completion}
    (h : o ∈ (arrayToCompletionResult data from_ to_ ctx state false).options) :
    o.isSnippet = false := by
  rcases mem_arrayToCompletionResult h with ⟨n, _, _, _, happ⟩ | ⟨hinc, _⟩
  · simp [Completion.isSnippet, happ]
  · exact Bool.noConfusion hinc

/-- A failed lookup resolves to the empty list. -/
lemma FetchOutcome.resolve_eq_nil {o : FetchOutcome} (h : o.isFailure = true) :
    o.resolve = [] := by
  cases o with
  | success vs => simp [FetchOutcome.isFailure] at h
  | failure m => rfl

/-- The candidate sources of the metric-name-identifier branch are among the
four static tables it draws from. -/
lemma mem_metricNameCompletionNodes {tree : Subtree} {n : AutoCompleteNode}
    (h : n ∈ metricNameCompletionNodes tree) :
    n = autocompleteNode.functionIdentifier ∨ n = autocompleteNode.aggregateOp ∨
      n = autocompleteNode.binOp ∨ n = autocompleteNode.binOpModifier := by
  unfold metricNameCompletionNodes at h
  split_ifs at h <;> simp at h <;> tauto

/-- The labels of every entry of the static completion tables, together with
the snippet labels: the candidates available with no metadata at all. -/
def staticCandidateLabels : List String :=
  matchOpTerms ++ binOpTerms ++ binOpModifierTerms ++ functionIdentifierTerms ++
    aggregateOpTerms ++ aggregateOpModifierTerms ++ parsedSnippets.map Completion.label

/-- Every term of every static table is a static candidate label. -/
lemma label_static_of_node {n : AutoCompleteNode} {label : String}
    (hn : n = autocompleteNode.matchOp ∨ n = autocompleteNode.binOp ∨
      n = autocompleteNode.binOpModifier ∨ n = autocompleteNode.functionIdentifier ∨
      n = autocompleteNode.aggregateOp ∨ n = autocompleteNode.aggregateOpModifier)
    (hl : label ∈ n.labels) : label ∈ staticCandidateLabels := by
  rcases hn with rfl | rfl | rfl | rfl | rfl | rfl <;>
    simp [autocompleteNode.matchOp, autocompleteNode.binOp, autocompleteNode.binOpModifier,
      autocompleteNode.functionIdentifier, autocompleteNode.aggregateOp,
      autocompleteNode.aggregateOpModifier, staticCandidateLabels] at hl ⊢ <;> tauto

/-- Every snippet label is a static candidate label. -/
lemma label_static_of_snippet {s : Completion} (hs : s ∈ parsedSnippets) :
    s.label ∈ staticCandidateLabels := by
  unfold staticCandidateLabels
  simp only [List.mem_append]
  exact Or.inr (List.mem_map_of_mem Completion.label hs)

/-- C10: with no Prometheus client configured, a cursor classified into the
grouping-labels branch, the label-matcher-list branch, or the label-matcher
string-literal branch resolves to `null` ("no completion applicable"), not
to a completion result with an empty candidate list. -/
theorem c10_no_client_label_branches_null (ctx : AutocompleteContext)
    (htree : (ctx.state.resolve ctx.pos).typeId = GroupingLabels ∨
      (ctx.state.resolve ctx.pos).typeId = LabelMatchers ∨
      ((optTypeId (ctx.state.resolve ctx.pos).parent = some GroupingLabel ∨
        optTypeId (ctx.state.resolve ctx.pos).parent = some LabelMatcher) ∧
        (ctx.state.resolve ctx.pos).typeId = LabelName) ∨
      (optTypeId (ctx.state.resolve ctx.pos).parent = some LabelMatcher ∧
        (ctx.state.resolve ctx.pos).typeId = StringLiteral)) :
    HybridComplete.promQL ⟨none⟩ ctx = none := by
  unfold HybridComplete.promQL HybridComplete.promQLWithTree
  set t := ctx.state.resolve ctx.pos with ht
  rcases htree with h | h | ⟨hp | hp, h⟩ | ⟨hp, h⟩
  · simp [h, HybridComplete.labelNames, GroupingLabels, Identifier]
  · simp [h, HybridComplete.autocompleteLabelNamesByMetric, HybridComplete.labelNames,
      LabelMatchers, GroupingLabels, Identifier, LabelName]
  · simp [h, hp, HybridComplete.labelNames, GroupingLabel, MetricIdentifier, LabelName,
      GroupingLabels, Identifier, LabelMatchers, LabelMatcher]
  · simp [h, hp, HybridComplete.autocompleteLabelNamesByMetric, HybridComplete.labelNames,
      LabelMatcher, MetricIdentifier, LabelName, GroupingLabels, GroupingLabel,
      Identifier, LabelMatchers]
  · obtain ⟨p, hp2⟩ : ∃ p, t.parent = some p := by
      cases hq : t.parent with
      | none => rw [hq] at hp; simp [optTypeId] at hp
      | some p => exact ⟨p, rfl⟩
    rw [hp2] at hp
    simp only [optTypeId, Option.map] at hp
    injection hp with hp
    simp [h, hp2, hp, optTypeId, HybridComplete.autocompleteLabelValue, StringLiteral,
      LabelMatcher, MetricIdentifier, LabelName, GroupingLabels, GroupingLabel, Identifier,
      LabelMatchers, MatchOp, BinaryExpr, FunctionIdentifier, AggregateOp, errorNodeId]

/-- A Prometheus client with fixed successful payloads, used by the
concrete examples. -/
def clientW : PrometheusClient :=
  { labelNamesOutcome := fun _ => FetchOutcome.success ["job", "instance"]
    labelValuesOutcome := fun _ _ => FetchOutcome.success ["v1"] }

/-- A completion strategy wired to `clientW`. -/
def hcSomeW : HybridComplete := ⟨some clientW⟩

/-- A grouping-labels list node (the `()` of `sum by()`). -/
def groupingNodeW : Subtree := Subtree.node GroupingLabels 6 8 none []

/-- A context whose cursor (offset 7, inside `sum by()`) resolves to
`groupingNodeW`, with a filter that keeps every candidate. -/
def ctxGroupingW : AutocompleteContext :=
  { state := { doc := "sum by()", resolve := fun _ => groupingNodeW }
    pos := 7
    filterScore := fun _ _ => some 1 }

/-- C10 witness: at the concrete grouping-labels context with no client the
resolver yields `null`. -/
theorem c10_witness : HybridComplete.promQL ⟨none⟩ ctxGroupingW = none :=
  c10_no_client_label_branches_null ctxGroupingW (Or.inl rfl)

/-- C4: in the grouping-labels and label-matcher-list branches (with a
configured metadata provider), the replacement start is the list node's
start offset plus one when the resolved node is the list node itself, and
the bare label-name token's own start when the resolved node is such a
token. -/
theorem c4_label_list_replacement_start (hc : HybridComplete) (ctx : AutocompleteContext)
    (c : PrometheusClient) (hcl : hc.prometheusClient = some c) :
    (((ctx.state.resolve ctx.pos).typeId = GroupingLabels ∨
        (ctx.state.resolve ctx.pos).typeId = LabelMatchers) →
      ∀ r, hc.promQL ctx = some (Except.ok r) →
        r.from_ = (ctx.state.resolve ctx.pos).start + 1) ∧
    (((optTypeId (ctx.state.resolve ctx.pos).parent = some GroupingLabel ∨
        optTypeId (ctx.state.resolve ctx.pos).parent = some LabelMatcher) ∧
        (ctx.state.resolve ctx.pos).typeId = LabelName) →
      ∀ r, hc.promQL ctx = some (Except.ok r) →
        r.from_ = (ctx.state.resolve ctx.pos).start) := by
  constructor
  · intro h r hr
    unfold HybridComplete.promQL HybridComplete.promQLWithTree at hr
    set t := ctx.state.resolve ctx.pos with ht
    rcases h with h | h
    · simp [h, hcl, HybridComplete.labelNames, PrometheusClient.labelNames, Except.map,
        GroupingLabels, Identifier, LabelMatchers] at hr
      rw [← hr]
      simp
    · simp [h, hcl, HybridComplete.autocompleteLabelNamesByMetric, HybridComplete.labelNames,
        PrometheusClient.labelNames, Except.map, GroupingLabels, Identifier, LabelMatchers,
        LabelName] at hr
      rw [← hr]
      simp
  · intro h r hr
    unfold HybridComplete.promQL HybridComplete.promQLWithTree at hr
    set t := ctx.state.resolve ctx.pos with ht
    obtain ⟨hp, h⟩ := h
    rcases hp with hp | hp
    · simp [h, hp, hcl, HybridComplete.labelNames, PrometheusClient.labelNames, Except.map,
        GroupingLabels, GroupingLabel, Identifier, LabelMatchers, LabelName,
        MetricIdentifier] at hr
      rw [← hr]
      simp
    · simp [h, hp, hcl, HybridComplete.autocompleteLabelNamesByMetric,
        HybridComplete.labelNames, PrometheusClient.labelNames, Except.map, GroupingLabels,
        GroupingLabel, Identifier, LabelMatchers, LabelName, LabelMatcher,
        MetricIdentifier] at hr
      rw [← hr]
      simp

/-- C4 witness: at the concrete grouping-labels context, the assembled
result's replacement start is the list node's start plus one. -/
theorem c4_witness :
    (arrayToCompletionResult [AutoCompleteNode.mk ["job", "instance"] "constant"] 7 7
        ctxGroupingW ctxGroupingW.state false).from_ =
      (ctxGroupingW.state.resolve ctxGroupingW.pos).start + 1 :=
  (c4_label_list_replacement_start hcSomeW ctxGroupingW clientW rfl).1 (Or.inl rfl) _ rfl

/-- C2 counterexample: on the single-line document `abc` with the cursor at
offset 2, the request body's `positionChar` is 1, while the claimed value
`cursorOffset - lineStartOffset` is 2. -/
theorem c2_counterexample :
    ¬ ((LSPClient.requestBody "abc" 2).positionChar =
        (2 : Int) - ((lineAt "abc" 2).from_ : Int)) := by
  decide

/-- C2 amended: `positionChar` equals the cursor offset minus the line
start offset minus one when the cursor is at least two characters past the
line start, and the cursor offset minus the line start offset otherwise
(in particular 0 at the line start); `positionLine` equals the editor's
1-based line number minus one. -/
theorem c2_amended_request_position (doc : String) (pos : Nat) :
    (LSPClient.requestBody doc pos).positionChar =
      (if (pos : Int) - ((lineAt doc pos).from_ : Int) ≥ 2 then
        (pos : Int) - ((lineAt doc pos).from_ : Int) - 1
       else (pos : Int) - ((lineAt doc pos).from_ : Int)) ∧
    (LSPClient.requestBody doc pos).positionLine = (lineAt doc pos).number - 1 := by
  unfold LSPClient.requestBody
  constructor
  · dsimp only
    split_ifs with h1 h2 h3 <;> omega
  · rfl

/-- C9: on a single-line document (line start offset 0), the response
holding one item labelled `foo` with a text edit starting at character 3 and
`newText` `foobar` yields a result with `from` 3 (line start plus the edit's
start character), `to` the original cursor offset, and exactly one candidate
labelled `foobar` (the edit's `newText` overriding the response label). -/
theorem c9_lsp_textedit_result (doc : String) (pos : Nat)
    (hline : lineAt doc pos = { from_ := 0, number := 1 }) :
    LSPClient.handleResponse doc pos
        (LSPResponseData.iterable
          [{ label := "foo",
             textEdit := some
               { range :=
                   { start := { line := 0, character := 3 },
                     stop := { line := 0, character := 5 } },
                 newText := "foobar" } }]) =
      { from_ := 3, to_ := pos, options := [{ label := "foobar" }] } := by
  unfold LSPClient.handleResponse
  rw [hline]
  rfl

/-- C9 witness: the concrete single-line document `foobar` with the cursor
at offset 6. -/
theorem c9_witness :
    LSPClient.handleResponse "foobar" 6
        (LSPResponseData.iterable
          [{ label := "foo",
             textEdit := some
               { range :=
                   { start := { line := 0, character := 3 },
                     stop := { line := 0, character := 5 } },
                 newText := "foobar" } }]) =
      { from_ := 3, to_ := 6, options := [{ label := "foobar" }] } :=
  c9_lsp_textedit_result "foobar" 6 (by decide)

/-- C7: in the metric-name-identifier branch, the binary-operator-modifier
table is part of the candidate set exactly when the fourth ancestor of the
resolved node (parent of parent of parent of parent) exists and is a
binary-expression node. -/
theorem c7_binop_modifier_iff_fourth_ancestor (tree : Subtree) :
    autocompleteNode.binOpModifier ∈ metricNameCompletionNodes tree ↔
      optTypeId (fourthAncestor tree) = some BinaryExpr := by
  constructor
  · intro hmem
    by_contra hne
    unfold metricNameCompletionNodes at hmem
    rw [if_neg hne] at hmem
    revert hmem
    decide
  · intro h
    unfold metricNameCompletionNodes
    rw [if_pos h]
    decide

/-- C5: in the label-matcher string-literal branch (with a configured
provider), the resolver fetches the label values of the matcher's label
name (taken from the matcher node's first child) scoped by the metric name
found through `walkBackward` to the vector selector and `walkThrough` to
its metric identifier, and assembles them (display kind `text`) with a
replacement span from the string literal's start plus one to the cursor. -/
theorem c5_label_value_branch (hc : HybridComplete) (ctx : AutocompleteContext)
    (c : PrometheusClient) (par : Subtree)
    (hcl : hc.prometheusClient = some c)
    (hpar : (ctx.state.resolve ctx.pos).parent = some par)
    (hptyp : par.typeId = LabelMatcher)
    (htyp : (ctx.state.resolve ctx.pos).typeId = StringLiteral) :
    hc.promQL ctx = some ((c.labelValues (matcherLabelName par ctx.state)
        (some (getMetricNameInVectorSelector (ctx.state.resolve ctx.pos) ctx.state))).map
      fun labelValues =>
        arrayToCompletionResult [{ labels := labelValues, type := "text" }]
          ((ctx.state.resolve ctx.pos).start + 1) ctx.pos ctx ctx.state false) := by
  unfold HybridComplete.promQL HybridComplete.promQLWithTree
  set t := ctx.state.resolve ctx.pos with ht
  simp [htyp, hpar, hptyp, optTypeId, hcl, HybridComplete.autocompleteLabelValue,
    StringLiteral, Identifier, GroupingLabels, GroupingLabel, LabelName, LabelMatchers,
    LabelMatcher, MetricIdentifier]

/-- Metric-name identifier node (`up`) of the concrete selector example. -/
def identNodeW : Subtree := Subtree.node Identifier 0 2 none []

/-- Metric-identifier node of the concrete selector example. -/
def metricIdNodeW : Subtree := Subtree.node MetricIdentifier 0 2 none [identNodeW]

/-- Vector-selector node of the concrete selector example. -/
def vectorNodeW : Subtree := Subtree.node VectorSelector 0 8 none [metricIdNodeW]

/-- Label-name node (`a`) of the concrete selector example. -/
def labelNameNodeW : Subtree := Subtree.node LabelName 3 4 none []

/-- Label-matcher node of the concrete selector example, inside the vector
selector, with the label name as first child. -/
def matcherNodeW : Subtree := Subtree.node LabelMatcher 3 7 (some vectorNodeW) [labelNameNodeW]

/-- String-literal node of the concrete selector example, inside the
matcher. -/
def stringNodeW : Subtree := Subtree.node StringLiteral 5 7 (some matcherNodeW) []

/-- A context whose cursor (offset 7) resolves to `stringNodeW`. -/
def ctxStringW : AutocompleteContext :=
  { state := { doc := "up.a=.v", resolve := fun _ => stringNodeW }
    pos := 7
    filterScore := fun _ _ => some 1 }

/-- C5 witness: the concrete string-literal context resolves to the
label-value fetch for label `a` scoped by metric `up`, with span from the
literal's start plus one to the cursor. -/
theorem c5_witness :
    HybridComplete.promQL hcSomeW ctxStringW =
      some ((clientW.labelValues (matcherLabelName matcherNodeW ctxStringW.state)
          (some (getMetricNameInVectorSelector (ctxStringW.state.resolve ctxStringW.pos)
            ctxStringW.state))).map
        fun labelValues =>
          arrayToCompletionResult [{ labels := labelValues, type := "text" }]
            ((ctxStringW.state.resolve ctxStringW.pos).start + 1) ctxStringW.pos ctxStringW
            ctxStringW.state false) :=
  c5_label_value_branch hcSomeW ctxStringW clientW matcherNodeW rfl rfl rfl rfl

/-- The three base tables are always among the metric-name-identifier
branch's candidate sources. -/
lemma base_mem_metricNameCompletionNodes (tree : Subtree) :
    autocompleteNode.functionIdentifier ∈ metricNameCompletionNodes tree ∧
      autocompleteNode.aggregateOp ∈ metricNameCompletionNodes tree ∧
      autocompleteNode.binOp ∈ metricNameCompletionNodes tree := by
  unfold metricNameCompletionNodes
  split_ifs <;> refine ⟨?_, ?_, ?_⟩ <;> decide

/-- No parsed snippet carries a display kind. -/
lemma parsedSnippets_type_none : ∀ s ∈ parsedSnippets, s.type = none := by decide

/-- C6: in the metric-name-identifier branch with no configured provider
(and a host filter that keeps every candidate), the result contains every
function name, aggregation operator and binary operator, and holds no
`constant`-kind candidate — the kind under which metric names are offered,
so no metric name is offered. -/
theorem c6_no_client_metric_identifier_branch (ctx : AutocompleteContext)
    (hpass : ∀ c text, ∃ sc, ctx.filterScore c text = some sc)
    (hpar : optTypeId (ctx.state.resolve ctx.pos).parent = some MetricIdentifier)
    (htyp : (ctx.state.resolve ctx.pos).typeId = Identifier) :
    ∀ r, HybridComplete.promQL ⟨none⟩ ctx = some (Except.ok r) →
      (∀ s ∈ functionIdentifierTerms ++ aggregateOpTerms ++ binOpTerms,
        ∃ o ∈ r.options, o.label = s) ∧
      ∀ o ∈ r.options, o.type ≠ some "constant" := by
  intro r hr
  unfold HybridComplete.promQL HybridComplete.promQLWithTree at hr
  set t := ctx.state.resolve ctx.pos with ht
  rw [if_pos ⟨hpar, htyp⟩] at hr
  dsimp only at hr
  injection hr with hr
  injection hr with hr
  subst hr
  obtain ⟨hf, ha, hb⟩ := base_mem_metricNameCompletionNodes t
  constructor
  · intro s hs
    rw [List.mem_append, List.mem_append] at hs
    rcases hs with (hs | hs) | hs
    · exact label_mem_arrayToCompletionResult hpass hf hs
    · exact label_mem_arrayToCompletionResult hpass ha hs
    · exact label_mem_arrayToCompletionResult hpass hb hs
  · intro o ho
    rcases mem_arrayToCompletionResult ho with ⟨n, hn, _, htype, _⟩ | ⟨_, s, hs, _, htype, _⟩
    · intro hconst
      rw [htype] at hconst
      injection hconst with hconst
      rcases mem_metricNameCompletionNodes hn with rfl | rfl | rfl | rfl <;> revert hconst <;> decide
    · intro hconst
      rw [htype, parsedSnippets_type_none s hs] at hconst
      exact Option.noConfusion hconst

/-- Metric-identifier parent node of the concrete bare-identifier example. -/
def metricParentNodeW : Subtree := Subtree.node MetricIdentifier 0 1 none []

/-- Bare identifier node of the concrete bare-identifier example. -/
def bareIdentNodeW : Subtree := Subtree.node Identifier 0 1 (some metricParentNodeW) []

/-- A context whose cursor (offset 1 in the document `r`) resolves to
`bareIdentNodeW`. -/
def ctxIdentW : AutocompleteContext :=
  { state := { doc := "r", resolve := fun _ => bareIdentNodeW }
    pos := 1
    filterScore := fun _ _ => some 1 }

/-- C6 witness: at the concrete bare-identifier context without a client,
the function name `rate` is among the offered labels. -/
theorem c6_witness :
    ∃ o ∈ (arrayToCompletionResult (metricNameCompletionNodes bareIdentNodeW) 0 1 ctxIdentW
        ctxIdentW.state true).options, o.label = "rate" :=
  ((c6_no_client_metric_identifier_branch ctxIdentW (fun _ _ => ⟨1, rfl⟩) rfl rfl) _ rfl).1
    "rate" (by decide)

/-- C8: snippet candidates can only appear when the invocation is classified
into the metric-name-identifier branch: whenever the resolved node fails
that branch's predicate, no candidate of the result is a snippet. -/
theorem c8_snippets_only_in_metric_branch (hc : HybridComplete) (ctx : AutocompleteContext)
    (hnb1 : ¬ (optTypeId (ctx.state.resolve ctx.pos).parent = some MetricIdentifier ∧
      (ctx.state.resolve ctx.pos).typeId = Identifier)) :
    ∀ r, hc.promQL ctx = some (Except.ok r) → ∀ o ∈ r.options, o.isSnippet = false := by
  obtain ⟨pc⟩ := hc
  intro r hr o ho
  unfold HybridComplete.promQL HybridComplete.promQLWithTree at hr
  set t := ctx.state.resolve ctx.pos with ht
  rw [if_neg hnb1] at hr
  split_ifs at hr
  · cases pc with
    | none => simp [HybridComplete.labelNames] at hr
    | some c =>
      simp [HybridComplete.labelNames, PrometheusClient.labelNames, Except.map] at hr
      subst hr
      exact isSnippet_false_of_mem ho
  · cases pc with
    | none => simp [HybridComplete.autocompleteLabelNamesByMetric, HybridComplete.labelNames] at hr
    | some c =>
      simp [HybridComplete.autocompleteLabelNamesByMetric, HybridComplete.labelNames,
        PrometheusClient.labelNames, Except.map] at hr
      subst hr
      exact isSnippet_false_of_mem ho
  · cases hp : t.parent with
    | none => rw [hp] at hr; simp at hr
    | some par =>
      rw [hp] at hr
      cases pc with
      | none => simp [HybridComplete.autocompleteLabelValue] at hr
      | some c =>
        simp [HybridComplete.autocompleteLabelValue, PrometheusClient.labelValues,
          Except.map] at hr
        subst hr
        exact isSnippet_false_of_mem ho
  · cases hl : t.lastChild with
    | none => rw [hl] at hr; simp at hr
    | some lc =>
      rw [hl] at hr
      simp at hr
      subst hr
      exact isSnippet_false_of_mem ho
  · simp at hr
    subst hr
    exact isSnippet_false_of_mem ho
  · simp at hr
    subst hr
    exact isSnippet_false_of_mem ho
  · simp at hr
    subst hr
    exact isSnippet_false_of_mem ho
  · simp at hr
    subst hr
    exact isSnippet_false_of_mem ho
  · simp at hr
    subst hr
    exact isSnippet_false_of_mem ho

/-- C8 witness: at the concrete grouping-labels context the surviving
`job` candidate is not a snippet. -/
theorem c8_witness :
    (Completion.mk "job" "job" (ApplyAction.text "job") (some "constant") 1).isSnippet = false :=
  c8_snippets_only_in_metric_branch hcSomeW ctxGroupingW (by decide) _ rfl _ (by decide)

/-- Every candidate source of the metric-name-identifier branch contributes
only static candidate labels. -/
lemma label_static_of_metricNode {tree : Subtree} {n : AutoCompleteNode} {label : String}
    (hn : n ∈ metricNameCompletionNodes tree) (hl : label ∈ n.labels) :
    label ∈ staticCandidateLabels := by
  rcases mem_metricNameCompletionNodes hn with rfl | rfl | rfl | rfl <;>
    exact label_static_of_node (by tauto) hl

/-- A result assembled without snippets from a single empty source has no
options at all. -/
lemma no_options_empty_source {ty : String} {from_ to_ : Nat} {ctx : AutocompleteContext}
    {state : EditorState} {o : Completion}
    (h : o ∈ (arrayToCompletionResult [AutoCompleteNode.mk [] ty] from_ to_ ctx state
      false).options) : False := by
  rcases mem_arrayToCompletionResult h with ⟨n, hn, hlab, _, _⟩ | ⟨hinc, _⟩
  · simp at hn
    subst hn
    simp at hlab
  · exact Bool.noConfusion hinc

/-- A result assembled without snippets from sources among the six static
tables carries only static candidate labels. -/
lemma label_static_of_listed {data : List AutoCompleteNode} {from_ to_ : Nat}
    {ctx : AutocompleteContext} {state : EditorState} {o : Completion}
    (hdata : ∀ n ∈ data, n = autocompleteNode.matchOp ∨ n = autocompleteNode.binOp ∨
      n = autocompleteNode.binOpModifier ∨ n = autocompleteNode.functionIdentifier ∨
      n = autocompleteNode.aggregateOp ∨ n = autocompleteNode.aggregateOpModifier)
    (h : o ∈ (arrayToCompletionResult data from_ to_ ctx state false).options) :
    o.label ∈ staticCandidateLabels := by
  rcases mem_arrayToCompletionResult h with ⟨n, hn, hlab, _, _⟩ | ⟨hinc, _⟩
  · exact label_static_of_node (hdata n hn) hlab
  · exact Bool.noConfusion hinc

set_option maxHeartbeats 1000000 in
/-- C1: with a configured client all of whose metadata lookups fail, every
resolver invocation still resolves (no branch ever yields a rejected
promise), and every candidate of a resolved result is a static/grammar
candidate — metadata-derived candidates are absent, so the result is an
empty or reduced candidate set. -/
theorem c1_fetch_failure_degrades (c : PrometheusClient) (ctx : AutocompleteContext)
    (hfail : (∀ m, (c.labelNamesOutcome m).isFailure = true) ∧
      ∀ l m, (c.labelValuesOutcome l m).isFailure = true) :
    (∀ e, HybridComplete.promQL ⟨some c⟩ ctx ≠ some (Except.error e)) ∧
    (∀ r, HybridComplete.promQL ⟨some c⟩ ctx = some (Except.ok r) →
      ∀ o ∈ r.options, o.label ∈ staticCandidateLabels) := by
  obtain ⟨hfn, hfv⟩ := hfail
  constructor
  · intro e hr
    unfold HybridComplete.promQL HybridComplete.promQLWithTree at hr
    set t := ctx.state.resolve ctx.pos with ht
    split_ifs at hr <;>
      simp [HybridComplete.labelNames, HybridComplete.autocompleteLabelNamesByMetric,
        HybridComplete.autocompleteLabelValue, PrometheusClient.labelNames,
        PrometheusClient.labelValues, Except.map, Option.bind_eq_some] at hr
  · intro r hr o ho
    unfold HybridComplete.promQL HybridComplete.promQLWithTree at hr
    set t := ctx.state.resolve ctx.pos with ht
    split_ifs at hr
    · simp [PrometheusClient.labelValues, Except.map] at hr
      subst hr
      rw [FetchOutcome.resolve_eq_nil (hfv "__name__" none)] at ho
      rcases mem_arrayToCompletionResult ho with ⟨n, hn, hlab, _, _⟩ | ⟨_, s, hs, hlabel, _, _⟩
      · rcases List.mem_cons.mp hn with rfl | hn
        · simp at hlab
        · exact label_static_of_metricNode hn hlab
      · rw [hlabel]
        exact label_static_of_snippet hs
    · simp [HybridComplete.labelNames, PrometheusClient.labelNames, Except.map] at hr
      subst hr
      rw [FetchOutcome.resolve_eq_nil (hfn none)] at ho
      exact (no_options_empty_source ho).elim
    · simp [HybridComplete.autocompleteLabelNamesByMetric, HybridComplete.labelNames,
        PrometheusClient.labelNames, Except.map] at hr
      subst hr
      rw [FetchOutcome.resolve_eq_nil (hfn _)] at ho
      exact (no_options_empty_source ho).elim
    · cases hp : t.parent with
      | none => rw [hp] at hr; simp at hr
      | some par =>
        rw [hp] at hr
        simp [HybridComplete.autocompleteLabelValue, PrometheusClient.labelValues,
          Except.map] at hr
        subst hr
        rw [FetchOutcome.resolve_eq_nil (hfv _ _)] at ho
        exact (no_options_empty_source ho).elim
    · cases hl : t.lastChild with
      | none => rw [hl] at hr; simp at hr
      | some lc =>
        rw [hl] at hr
        simp at hr
        subst hr
        exact label_static_of_listed (by decide) ho
    · simp at hr
      subst hr
      exact label_static_of_listed (by decide) ho
    · simp at hr
      subst hr
      exact label_static_of_listed (by decide) ho
    · simp at hr
      subst hr
      exact label_static_of_listed (by decide) ho
    · simp at hr
      subst hr
      exact label_static_of_listed (by decide) ho
    · simp at hr
      subst hr
      exact label_static_of_listed (by decide) ho

/-- A Prometheus client all of whose lookups fail. -/
def failClientW : PrometheusClient :=
  { labelNamesOutcome := fun _ => FetchOutcome.failure "boom"
    labelValuesOutcome := fun _ _ => FetchOutcome.failure "boom" }

/-- C1 witness: with the failing client at the concrete grouping-labels
context, the resolver does not yield a rejected promise. -/
theorem c1_witness :
    HybridComplete.promQL ⟨some failClientW⟩ ctxGroupingW ≠ some (Except.error "boom") :=
  (c1_fetch_failure_degrades failClientW ctxGroupingW ⟨fun _ => rfl, fun _ _ => rfl⟩).1 "boom"

/-- Label-name node `a` (offsets 2..3) of the parse of `m{a  !}`. -/
def gapLabelNameNodeW : Subtree := Subtree.node LabelName 2 3 none []

/-- Error node covering the lone `!` (offsets 5..6) of the parse of
`m{a  !}`; it has no children. -/
def gapErrorNodeW : Subtree := Subtree.node errorNodeId 5 6 none []

/-- The label-matcher node of the parse of `m{a  !}`: first child the label
name, last child the error token. -/
def gapMatcherNodeW : Subtree :=
  Subtree.node LabelMatcher 2 6 none [gapLabelNameNodeW, gapErrorNodeW]

/-- A context for `m{a  !}` with the cursor at offset 4, in the whitespace
gap between the label name and the invalid `!`: side `-1` resolution yields
the matcher node itself, since neither child spans the cursor (the label
name ends at 3, the error token starts at 5). -/
def ctxMatcherGapW : AutocompleteContext :=
  { state := { doc := "m\x7ba  !\x7d", resolve := fun _ => gapMatcherNodeW }
    pos := 4
    filterScore := fun _ _ => some 1 }

/-- C3 counterexample: at the concrete unfinished-matcher context the
resolver returns a completion result whose replacement start is the invalid
token's start, 5, past the cursor at 4 — the claimed invariant
`replacementStart <= cursorPosition` fails on this branch. -/
theorem c3_counterexample :
    HybridComplete.promQL ⟨none⟩ ctxMatcherGapW =
      some (Except.ok (arrayToCompletionResult [autocompleteNode.matchOp] 5 4 ctxMatcherGapW
        ctxMatcherGapW.state false)) ∧
      ¬ (arrayToCompletionResult [autocompleteNode.matchOp] 5 4 ctxMatcherGapW
          ctxMatcherGapW.state false).from_ ≤ ctxMatcherGapW.pos :=
  ⟨rfl, by decide⟩

set_option maxHeartbeats 1600000 in
/-- C3 (amended): every returned completion result ends exactly at the
cursor (so `cursorPosition <= replacementEnd` always holds), and its
replacement start does not exceed the cursor in every branch except the
unfinished-matcher-operator branch, whose replacement start is the trailing
invalid token's own start and can lie past the cursor; the resolved node is
assumed to start strictly before the cursor, which side `-1` resolution
guarantees. -/
theorem c3_amended_replacement_span (hc : HybridComplete) (ctx : AutocompleteContext)
    (h1 : (ctx.state.resolve ctx.pos).start < ctx.pos) :
    ∀ r, hc.promQL ctx = some (Except.ok r) →
      r.to_ = ctx.pos ∧
      (¬ ((ctx.state.resolve ctx.pos).typeId = LabelMatcher ∧
          optTypeId (ctx.state.resolve ctx.pos).firstChild = some LabelName ∧
          optTypeId (ctx.state.resolve ctx.pos).lastChild = some errorNodeId ∧
          lastChildFirstChildIsNull (ctx.state.resolve ctx.pos) = true) →
        r.from_ ≤ ctx.pos) := by
  obtain ⟨pc⟩ := hc
  intro r hr
  unfold HybridComplete.promQL HybridComplete.promQLWithTree at hr
  set t := ctx.state.resolve ctx.pos with ht
  split_ifs at hr with b1 b2 b3 b4 b5 b6 b7 b8 b9 b10
  · cases pc with
    | none =>
      injection hr with hr
      injection hr with hr
      subst hr
      refine ⟨rfl, fun _ => ?_⟩
      simp only [arrayToCompletionResult_from_]
      omega
    | some c =>
      injection hr with hr
      injection hr with hr
      subst hr
      refine ⟨rfl, fun _ => ?_⟩
      simp only [arrayToCompletionResult_from_]
      omega
  · cases pc with
    | none => exact absurd hr (by simp [HybridComplete.labelNames])
    | some c =>
      injection hr with hr
      injection hr with hr
      subst hr
      refine ⟨rfl, fun _ => ?_⟩
      simp only [arrayToCompletionResult_from_]
      split_ifs <;> omega
  · cases pc with
    | none =>
      exact absurd hr (by
        simp [HybridComplete.autocompleteLabelNamesByMetric, HybridComplete.labelNames])
    | some c =>
      injection hr with hr
      injection hr with hr
      subst hr
      refine ⟨rfl, fun _ => ?_⟩
      simp only [arrayToCompletionResult_from_]
      split_ifs <;> omega
  · cases hp : t.parent with
    | none => rw [hp] at hr; exact absurd hr (by simp)
    | some par =>
      rw [hp] at hr
      cases pc with
      | none => exact absurd hr (by simp [HybridComplete.autocompleteLabelValue])
      | some c =>
        injection hr with hr
        injection hr with hr
        subst hr
        refine ⟨rfl, fun _ => ?_⟩
        simp only [arrayToCompletionResult_from_]
        omega
  · cases hl : t.lastChild with
    | none => rw [hl] at hr; exact absurd hr (by simp)
    | some lc =>
      rw [hl] at hr b5
      injection hr with hr
      injection hr with hr
      subst hr
      exact ⟨rfl, fun hn => absurd b5 hn⟩
  · injection hr with hr
    injection hr with hr
    subst hr
    refine ⟨rfl, fun _ => ?_⟩
    simp only [arrayToCompletionResult_from_]
    omega
  · injection hr with hr
    injection hr with hr
    subst hr
    refine ⟨rfl, fun _ => ?_⟩
    simp only [arrayToCompletionResult_from_]
    omega
  · injection hr with hr
    injection hr with hr
    subst hr
    refine ⟨rfl, fun _ => ?_⟩
    simp only [arrayToCompletionResult_from_]
    omega
  · injection hr with hr
    injection hr with hr
    subst hr
    refine ⟨rfl, fun _ => ?_⟩
    simp only [arrayToCompletionResult_from_]
    omega
  · injection hr with hr
    injection hr with hr
    subst hr
    refine ⟨rfl, fun _ => ?_⟩
    simp only [arrayToCompletionResult_from_]
    omega

/-- C3 witness: the amended span facts at the concrete grouping-labels
context. -/
theorem c3_amended_witness :
    (arrayToCompletionResult [AutoCompleteNode.mk ["job", "instance"] "constant"] 7 7
        ctxGroupingW ctxGroupingW.state false).to_ = ctxGroupingW.pos ∧
      (¬ ((ctxGroupingW.state.resolve ctxGroupingW.pos).typeId = LabelMatcher ∧
          optTypeId (ctxGroupingW.state.resolve ctxGroupingW.pos).firstChild = some LabelName ∧
          optTypeId (ctxGroupingW.state.resolve ctxGroupingW.pos).lastChild = some errorNodeId ∧
          lastChildFirstChildIsNull (ctxGroupingW.state.resolve ctxGroupingW.pos) = true) →
        (arrayToCompletionResult [AutoCompleteNode.mk ["job", "instance"] "constant"] 7 7
          ctxGroupingW ctxGroupingW.state false).from_ ≤ ctxGroupingW.pos) :=
  c3_amended_replacement_span hcSomeW ctxGroupingW (by decide) _ rfl
